import Mathlib

/-!
Verification of the swiftspace crypto-payment backend.

The Supabase edge functions (buy, evm-notify, solana-receipt, invoice-public,
confirmations) are shallowly embedded as pure Lean functions over an explicit
database state.  JavaScript numbers are modelled as exact rationals extended
with NaN and the two infinities (`JsNum`); double rounding and overflow are not
modelled, i.e. arithmetic is idealised as exact.  The persistent store is a
record of lists of rows; `where`-style row filters become list operations.
Randomness (crypto.randomUUID, gen_random_uuid) and clocks are passed in as
explicit parameters.
-/

namespace SwiftSpace

/-- Invoice status values of the invoices table. -/
inductive Status
  | draft
  | pending
  | paid
  | confirmed
  | expired
deriving DecidableEq, Repr

/-- JavaScript number: NaN, the infinities, or a finite value (idealised as an
exact rational). -/
inductive JsNum
  | nan
  | inf
  | ninf
  | fin (q : ℚ)
deriving DecidableEq, Repr

/-- JSON-ish value as seen by the webhook payload readers.  `undef` stands for a
missing field (or for a coalescing chain whose members are all nullish). -/
inductive RawValue
  | undef
  | null
  | num (q : ℚ)
  | str (s : String)
deriving DecidableEq, Repr

/-- JavaScript nullish coalescing `v ?? d` on raw values. -/
def rawOr (v d : RawValue) : RawValue :=
  match v with
  | .undef => d
  | .null => d
  | x => x

/-- Power of ten with an integer exponent, as a rational. -/
def qpow10 (n : ℤ) : ℚ :=
  if 0 ≤ n then ((10 : ℚ) ^ n.toNat) else 1 / (10 : ℚ) ^ (-n).toNat

/-- JavaScript `Math.pow(10, d)` on a JsNum exponent.  A finite non-integral
exponent would give an irrational power, which is not representable in the
rational idealisation; such exponents are mapped to NaN (they can only arise
from a provider sending a fractional `decimals` field). -/
def jsPow10 : JsNum → JsNum
  | .nan => .nan
  | .inf => .inf
  | .ninf => .fin 0
  | .fin q => if q.den = 1 then .fin (qpow10 q.num) else .nan

/-- JavaScript division. -/
def jsDiv : JsNum → JsNum → JsNum
  | .nan, _ => .nan
  | _, .nan => .nan
  | .fin x, .fin y =>
    if y = 0 then (if x = 0 then .nan else if 0 < x then .inf else .ninf)
    else .fin (x / y)
  | .fin _, .inf => .fin 0
  | .fin _, .ninf => .fin 0
  | .inf, .fin y => if y < 0 then .ninf else .inf
  | .ninf, .fin y => if y < 0 then .inf else .ninf
  | .inf, .inf => .nan
  | .inf, .ninf => .nan
  | .ninf, .inf => .nan
  | .ninf, .ninf => .nan

/-- JavaScript addition. -/
def jsAdd : JsNum → JsNum → JsNum
  | .nan, _ => .nan
  | _, .nan => .nan
  | .fin x, .fin y => .fin (x + y)
  | .fin _, .inf => .inf
  | .fin _, .ninf => .ninf
  | .inf, .fin _ => .inf
  | .ninf, .fin _ => .ninf
  | .inf, .inf => .inf
  | .inf, .ninf => .nan
  | .ninf, .inf => .nan
  | .ninf, .ninf => .ninf

/-- JavaScript strict less-than comparison. -/
def jsLt : JsNum → JsNum → Bool
  | .nan, _ => false
  | _, .nan => false
  | .fin x, .fin y => decide (x < y)
  | .fin _, .inf => true
  | .fin _, .ninf => false
  | .inf, .fin _ => false
  | .ninf, .fin _ => true
  | .inf, .inf => false
  | .inf, .ninf => false
  | .ninf, .inf => true
  | .ninf, .ninf => false

/-- Truthiness test for a JsNum in a boolean context: 0 and NaN are falsy. -/
def jsFalsy : JsNum → Bool
  | .nan => true
  | .fin q => decide (q = 0)
  | _ => false

/-- JavaScript `Math.round`: rounding half toward positive infinity. -/
def jsRound (x : ℚ) : ℤ := ⌊x + 1 / 2⌋

/-- JavaScript `parseFloat(x.toFixed(6))` on an exact rational: rounding to six
decimal places, half toward positive infinity (ties pick the larger value per
the toFixed specification). -/
def toFixed6 (x : ℚ) : ℚ := ((⌊x * 1000000 + 1 / 2⌋ : ℤ) : ℚ) / 1000000

/-- Whitespace trim, working on character lists. -/
def trimChars (l : List Char) : List Char :=
  ((l.dropWhile Char.isWhitespace).reverse.dropWhile Char.isWhitespace).reverse

/-- Splits the longest leading run of ASCII digits from a character list. -/
def takeDigits : List Char → List Char × List Char
  | [] => ([], [])
  | c :: cs =>
    if c.isDigit then
      let r := takeDigits cs
      (c :: r.1, r.2)
    else ([], c :: cs)

/-- Value of a decimal digit string. -/
def digitsVal (l : List Char) : ℕ := l.foldl (fun a c => 10 * a + (c.toNat - 48)) 0

/-- Hexadecimal digit test (both cases). -/
def isHexDigit (c : Char) : Bool :=
  c.isDigit || (decide ('a' ≤ c) && decide (c ≤ 'f')) || (decide ('A' ≤ c) && decide (c ≤ 'F'))

/-- Hexadecimal digit value. -/
def hexDigitVal (c : Char) : ℕ :=
  if c.isDigit then c.toNat - 48
  else if decide ('a' ≤ c) && decide (c ≤ 'f') then c.toNat - 87
  else c.toNat - 55

/-- Octal digit test. -/
def isOctDigit (c : Char) : Bool := decide ('0' ≤ c) && decide (c ≤ '7')

/-- Binary digit test. -/
def isBinDigit (c : Char) : Bool := c = '0' || c = '1'

/-- Tail of the decimal-literal parser: optional exponent part, given the sign,
the integer digits and the fraction digits already read. -/
def parseExpTail (sign : ℚ) (ip fp r2 : List Char) : JsNum :=
  let base : ℚ := (digitsVal ip : ℚ) + (digitsVal fp : ℚ) / (10 : ℚ) ^ fp.length
  match r2 with
  | [] => .fin (sign * base)
  | c :: r3 =>
    if c = 'e' ∨ c = 'E' then
      let sr : ℤ × List Char :=
        match r3 with
        | '+' :: r => (1, r)
        | '-' :: r => (-1, r)
        | r => (1, r)
      let ed := takeDigits sr.2
      if ed.1 = [] ∨ ed.2 ≠ [] then .nan
      else .fin (sign * base * qpow10 (sr.1 * (digitsVal ed.1 : ℤ)))
    else .nan

/-- Decimal-literal parser after the optional sign: digits, optional fraction,
optional exponent. -/
def parseDecTail (sign : ℚ) (l : List Char) : JsNum :=
  let ir := takeDigits l
  match ir.2 with
  | '.' :: r =>
    let fr := takeDigits r
    if ir.1 = [] ∧ fr.1 = [] then .nan else parseExpTail sign ir.1 fr.1 fr.2
  | _ => if ir.1 = [] then .nan else parseExpTail sign ir.1 [] ir.2

/-- Decimal literal with an optional sign. -/
def parseSigned (t : List Char) : JsNum :=
  match t with
  | c :: r =>
    if c = '+' then parseDecTail 1 r
    else if c = '-' then parseDecTail (-1) r
    else parseDecTail 1 (c :: r)
  | [] => parseDecTail 1 []

/-- The JavaScript `Number(string)` conversion: trimmed empty string is 0,
Infinity literals, hex/octal/binary literals, else a signed decimal literal;
anything else is NaN. -/
def jsNumberOfChars (l0 : List Char) : JsNum :=
  let t := trimChars l0
  if t = [] then .fin 0
  else if t = "Infinity".toList ∨ t = "+Infinity".toList then .inf
  else if t = "-Infinity".toList then .ninf
  else if t.take 2 = ['0', 'x'] ∨ t.take 2 = ['0', 'X'] then
    (if t.drop 2 ≠ [] ∧ (t.drop 2).all isHexDigit then
      .fin (((t.drop 2).foldl (fun a d => 16 * a + hexDigitVal d) 0 : ℕ) : ℚ)
    else .nan)
  else if t.take 2 = ['0', 'o'] ∨ t.take 2 = ['0', 'O'] then
    (if t.drop 2 ≠ [] ∧ (t.drop 2).all isOctDigit then
      .fin (((t.drop 2).foldl (fun a d => 8 * a + (d.toNat - 48)) 0 : ℕ) : ℚ)
    else .nan)
  else if t.take 2 = ['0', 'b'] ∨ t.take 2 = ['0', 'B'] then
    (if t.drop 2 ≠ [] ∧ (t.drop 2).all isBinDigit then
      .fin (((t.drop 2).foldl (fun a d => 2 * a + (d.toNat - 48)) 0 : ℕ) : ℚ)
    else .nan)
  else parseSigned t

/-- The JavaScript `Number(string)` conversion on a String. -/
def jsNumberOfString (s : String) : JsNum := jsNumberOfChars s.toList

/-- The JavaScript `Number(v)` conversion on a raw JSON-ish value. -/
def jsNumber (v : RawValue) : JsNum :=
  match v with
  | .undef => .nan
  | .null => .fin 0
  | .num q => .fin q
  | .str s => jsNumberOfString s

/-- Test for the regular expression of one or more ASCII digits anchored at both
ends, as used by the webhook amount normaliser. -/
def isDigitsStr (s : String) : Bool := s.toList ≠ [] && s.toList.all Char.isDigit

/-- ASCII lower-casing, modelling the JavaScript toLowerCase call (character-wise
lowering; the sources only handle ASCII addresses and symbols). -/
def jsToLower (s : String) : String := ⟨s.data.map Char.toLower⟩

/-- ASCII upper-casing, modelling the JavaScript toUpperCase call. -/
def jsToUpper (s : String) : String := ⟨s.data.map Char.toUpper⟩

/-- Whitespace trim on a String, modelling the JavaScript trim call. -/
def jsTrim (s : String) : String := ⟨trimChars s.data⟩

/-- Splits a character list on dash characters. -/
def splitDash : List Char → List (List Char)
  | [] => [[]]
  | c :: cs =>
    match splitDash cs with
    | [] => [[]]
    | g :: gs => if c = '-' then [] :: g :: gs else (c :: g) :: gs

/-! ## Data model

Row shapes follow the SQL schema in the README and in
supabase/migrations/20251103_billing.sql. -/

/-- Row of the invoices table (the columns the edge functions touch). -/
structure Invoice where
  id : ℕ
  userId : String
  amount : ℚ
  currency : String
  toAddress : String
  reference : Option String
  status : Status
  network : String
  confirmationsRequired : Option ℤ
  detectedTxHash : Option String
  detectedAt : Option ℕ
  confirmedAt : Option ℕ
  createdAt : ℕ
  publicToken : String
deriving DecidableEq, Repr

/-- Row of the payments table.  The amount is kept as a JsNum because the
webhook writes the normalised event amount verbatim. -/
structure Payment where
  invoiceId : ℕ
  chain : String
  txHash : String
  amount : JsNum
  confirmations : ℤ
deriving DecidableEq, Repr

/-- Row of the append-only payments_ledger table. -/
structure LedgerRow where
  merchantId : String
  invoiceId : ℕ
  currency : String
  amountCrypto : ℚ
  amountUsdCents : ℤ
deriving DecidableEq, Repr

/-- Row of merchant_usage_monthly, primary key (merchant_id, month). -/
structure UsageRow where
  merchantId : String
  month : String
  gmvCents : ℤ
deriving DecidableEq, Repr

/-- Row of the merchants table (the subscription fields the core reads). -/
structure MerchantRow where
  id : String
  planTier : Option String
  trialEndsAt : Option ℤ
deriving DecidableEq, Repr

/-- Row of the wallets table. -/
structure WalletRow where
  userId : String
  currency : String
  address : String
deriving DecidableEq, Repr

/-- The persistent store. -/
structure DB where
  invoices : List Invoice
  payments : List Payment
  ledger : List LedgerRow
  usage : List UsageRow
  merchants : List MerchantRow
  wallets : List WalletRow
deriving DecidableEq, Repr

/-! ## Edge function evm-notify (supabase/functions/evm-notify/index.ts) -/

/-- Webhook event after field coalescing: each field is the first non-nullish
member of the corresponding chain of provider field names (see extractFields in
the source; for instance toField models `e?.to ?? e?.toAddress ?? e?.to_address`),
with `none` or `RawValue.undef` when all members are nullish. -/
structure RawEvent where
  toField : Option String
  hashField : Option String
  decimalsField : RawValue
  valueField : RawValue
  assetField : Option String
  contractField : Option String
  networkField : Option String
  confirmationsField : RawValue
deriving DecidableEq, Repr

/-- Amount normaliser of evm-notify: nullish values map to 0; numbers pass
through; an integer-only string with a numeric decimals argument is scaled from
base units; any other string goes through Number() with NaN mapped to 0. -/
def normalizeAmount (value : RawValue) (decimals : Option JsNum) : JsNum :=
  match value with
  | .undef => .fin 0
  | .null => .fin 0
  | .num q => .fin q
  | .str s =>
    if isDigitsStr s ∧ decimals.isSome then
      jsDiv (.fin ((digitsVal s.toList : ℕ) : ℚ)) (jsPow10 (decimals.getD (.fin 0)))
    else
      match jsNumberOfString s with
      | .nan => .fin 0
      | v => v

/-- Normalised fields extracted from a webhook event. -/
structure Fields where
  toAddr : String
  txHash : String
  amount : JsNum
  currency : String
  network : String
  confirmations : JsNum
deriving DecidableEq, Repr

/-- Field extraction of evm-notify: lower-case recipient, upper-case currency
with the USDT/ETH contract fallback, default network ethereum, amount through
the normaliser. -/
def extractFields (e : RawEvent) : Fields :=
  let toAddr := jsToLower (e.toField.getD "")
  let txHash := e.hashField.getD ""
  let decimals := jsNumber (rawOr e.decimalsField (.num 18))
  let amount := normalizeAmount e.valueField (some decimals)
  let currencyRaw := e.assetField.getD ""
  let contract := e.contractField.getD ""
  let network := jsToLower (e.networkField.getD "ethereum")
  let currency :=
    if currencyRaw ≠ "" then jsToUpper currencyRaw
    else if contract ≠ "" then "USDT" else "ETH"
  let confirmations := jsNumber (rawOr e.confirmationsField (.num 0))
  ⟨toAddr, txHash, amount, currency, network, confirmations⟩

/-- Fold step keeping the invoice with the larger createdAt (the earlier one on
a tie). -/
def pickNewer (acc : Option Invoice) (i : Invoice) : Option Invoice :=
  match acc with
  | none => some i
  | some j => if j.createdAt < i.createdAt then some i else some j

/-- Picks the element with the largest createdAt (the first such element on a
tie), modelling order by created_at descending with limit 1. -/
def mostRecent (l : List Invoice) : Option Invoice :=
  l.foldl pickNewer none

/-- The invoice lookup of processEvent: the most recent pending or draft invoice
matching destination address, currency and network. -/
def findInvoice (db : DB) (dest cur net : String) : Option Invoice :=
  mostRecent (db.invoices.filter (fun i =>
    i.toAddress = dest ∧ i.currency = cur ∧ i.network = net ∧
      (i.status = .pending ∨ i.status = .draft)))

/-- Payment upsert keyed on tx_hash: a conflicting row is overwritten with the
new values, otherwise the row is appended. -/
def upsertPayment (ps : List Payment) (p : Payment) : List Payment :=
  if ps.any (fun q => q.txHash = p.txHash) then
    ps.map (fun q => if q.txHash = p.txHash then p else q)
  else ps ++ [p]

/-- The paid-marking update of processEvent: set status, detected hash and
detection time on every invoice row with the given id. -/
def markInvoicePaid (l : List Invoice) (id : ℕ) (hash : Option String) (now : ℕ) :
    List Invoice :=
  l.map (fun i =>
    if i.id = id then { i with status := .paid, detectedTxHash := hash, detectedAt := some now }
    else i)

/-- One webhook event processed by evm-notify.  `fresh` models the
crypto.randomUUID() fallback key for events without a transaction hash, and
`now` the detection timestamp.  The boolean records whether the invoice lookup
query was issued (instrumentation used by the specification only). -/
def processEvent (db : DB) (now : ℕ) (fresh : String) (e : RawEvent) : DB × Bool :=
  let f := extractFields e
  if f.toAddr = "" ∨ jsFalsy f.amount ∨ f.currency = "" then (db, false)
  else
    match findInvoice db f.toAddr f.currency f.network with
    | none => (db, true)
    | some inv =>
      let expected := inv.amount
      let tolerance := expected * (5 / 1000)
      if jsLt (jsAdd f.amount (.fin tolerance)) (.fin expected) then (db, true)
      else
        let txKey := if f.txHash = "" then fresh else f.txHash
        let db1 := { db with payments := upsertPayment db.payments ⟨inv.id, f.network, txKey, f.amount, 0⟩ }
        let db2 := { db1 with
          invoices := markInvoicePaid db1.invoices inv.id
            (if f.txHash = "" then none else some f.txHash) now }
        (db2, true)

/-! ## Edge function solana-receipt (supabase/functions/solana-receipt/index.ts) -/

/-- UUID test for the public token, after the regular expression in the source
(case-insensitive hex, version digit 1 to 5, variant 8/9/a/b). -/
def isUuid (s : String) : Bool :=
  match splitDash s.toList with
  | [a, b, c, d, e] =>
    decide (a.length = 8) && a.all isHexDigit &&
    decide (b.length = 4) && b.all isHexDigit &&
    decide (c.length = 4) && c.all isHexDigit &&
    (match c with
     | v :: _ => decide ('1' ≤ v) && decide (v ≤ '5')
     | [] => false) &&
    decide (d.length = 4) && d.all isHexDigit &&
    (match d with
     | v :: _ => (v = '8' || v = '9' || v = 'a' || v = 'b' || v = 'A' || v = 'B')
     | [] => false) &&
    decide (e.length = 12) && e.all isHexDigit
  | _ => false

/-- Base58 character class of the signature test. -/
def base58Char (c : Char) : Bool :=
  c.isAlphanum && !(c = '0' || c = 'O' || c = 'I' || c = 'l')

/-- Base58 signature test of solana-receipt: 32 to 100 base58 characters. -/
def isBase58 (s : String) : Bool :=
  decide (32 ≤ s.length) && decide (s.length ≤ 100) && s.toList.all base58Char

/-- Responses of the solana-receipt handler (store failures are not modelled,
the store being embedded as a pure value). -/
inductive SResp
  | invalidToken
  | invalidSignature
  | notFound
  | multipleRows
  | okTwoHundred
deriving DecidableEq, Repr

/-- HTTP status of a solana-receipt response. -/
def SResp.httpStatus : SResp → ℕ
  | .invalidToken => 400
  | .invalidSignature => 400
  | .notFound => 404
  | .multipleRows => 500
  | .okTwoHundred => 200

/-- Outcome of the read phase of solana-receipt: the row lookup and the
status test, before any write. -/
inductive SRead
  | noRow
  | manyRows
  | alreadyDone
  | proceed (inv : Invoice)
deriving DecidableEq, Repr

/-- Read phase of solana-receipt: fetch by public token with maybeSingle
semantics (more than one matching row is a query error), then test the status
guard testing that the status is not pending. -/
def solanaRead (db : DB) (t : String) : SRead :=
  match db.invoices.filter (fun i => i.publicToken = t) with
  | [] => .noRow
  | [inv] => if inv.status ≠ Status.pending then .alreadyDone else .proceed inv
  | _ => .manyRows

/-- Write phase of solana-receipt: the update filters on public_token only
(there is no status condition on the update itself). -/
def solanaUpdate (l : List Invoice) (t sig : String) : List Invoice :=
  l.map (fun i =>
    if i.publicToken = t then { i with status := .paid, detectedTxHash := some sig } else i)

/-- The solana-receipt handler: validate token and signature shape, read, and
conditionally write. -/
def solanaReceipt (db : DB) (tRaw sigRaw : String) : DB × SResp :=
  let t := jsTrim tRaw
  let sig := jsTrim sigRaw
  if ¬ isUuid t then (db, .invalidToken)
  else if ¬ isBase58 sig then (db, .invalidSignature)
  else
    match solanaRead db t with
    | .noRow => (db, .notFound)
    | .manyRows => (db, .multipleRows)
    | .alreadyDone => (db, .okTwoHundred)
    | .proceed _ => ({ db with invoices := solanaUpdate db.invoices t sig }, .okTwoHundred)

/-! ## Edge function invoice-public (supabase/functions/invoice-public/index.ts) -/

/-- Responses of the public invoice read endpoint.  The source orders the
sibling list by created_at descending; the ordering is not modelled (the list is
returned in store order), all statements about it being order-independent. -/
inductive PubResp
  | badToken
  | notFound
  | multipleRows
  | ok (inv : Invoice) (siblings : List Invoice)
deriving DecidableEq, Repr

/-- Sibling filter of invoice-public: same user, amount and reference (with the
null-aware reference match), status restricted to pending, paid or confirmed. -/
def siblingFilter (inv i : Invoice) : Bool :=
  i.userId = inv.userId ∧ i.amount = inv.amount ∧ i.reference = inv.reference ∧
    (i.status = .pending ∨ i.status = .paid ∨ i.status = .confirmed)

/-- The invoice-public handler: validate the token, fetch the invoice with
maybeSingle semantics, and return it with its sibling rows. -/
def invoicePublic (db : DB) (token : String) : PubResp :=
  if token = "" ∨ ¬ isUuid token then .badToken
  else
    match db.invoices.filter (fun i => i.publicToken = token) with
    | [] => .notFound
    | [inv] => .ok inv (db.invoices.filter (siblingFilter inv))
    | _ => .multipleRows

/-! ## Edge function confirmations (supabase/functions/confirmations/index.ts) -/

/-- Outcome of the EVM transaction-receipt lookup for one hash: a receipt with a
block number, a nullish receipt or a receipt without a block number, or a thrown
network error. -/
inductive EvmLookup
  | ok (blockNumber : ℤ)
  | missing
  | rpcError
deriving DecidableEq, Repr

/-- Outcome of the Solana getSignatureStatuses lookup for one signature. -/
inductive SolLookup
  | finalized
  | notFinal
  | rpcError
deriving DecidableEq, Repr

/-- Environment of one reconciler sweep: chain clients and clock.  `tip` is the
block height fetched once before the loop, `solPrice` the outcome of the
CoinGecko SOL quote (none when the fetch fails or the value is not finite), and
`month` the yyyy-mm-01 date string of the current UTC month. -/
structure SweepEnv where
  rpcConfigured : Bool
  tip : ℤ
  evm : String → EvmLookup
  sol : String → SolLookup
  solPrice : Option ℚ
  month : String
  now : ℕ

/-- The getUsdPrice helper of the confirmations function: the stablecoins are
pinned at exactly 1 without a network call, SOL goes through the quote fetch,
any other symbol has no CoinGecko id and yields null. -/
def getUsdPrice (solPrice : Option ℚ) (symbol : String) : Option ℚ :=
  let sym := jsToUpper symbol
  if sym = "USDC" ∨ sym = "USDT" then some 1
  else if sym = "SOL" then solPrice
  else none

/-- Merchant upsert on id with no further columns: inserts a fresh row with the
schema default plan_tier trial when absent, leaves an existing row unchanged. -/
def ensureMerchant (db : DB) (m : String) : DB :=
  if db.merchants.any (fun r => r.id = m) then db
  else { db with merchants := db.merchants ++ [⟨m, some "trial", none⟩] }

/-- Upsert into merchant_usage_monthly on the (merchant_id, month) key, writing
the given gmv_cents value. -/
def upsertUsage (us : List UsageRow) (m month : String) (cents : ℤ) : List UsageRow :=
  if us.any (fun r => r.merchantId = m ∧ r.month = month) then
    us.map (fun r => if r.merchantId = m ∧ r.month = month then ⟨m, month, cents⟩ else r)
  else us ++ [⟨m, month, cents⟩]

/-- Guard chain of the recordUsage helper, producing the ledger row it would
append: none when the merchant id is empty, the amount is zero (or falsy), the
currency is empty, or no nonzero USD quote is available; otherwise the row with
the rounded USD cents. -/
def recordedRow (solPrice : Option ℚ) (inv : Invoice) : Option LedgerRow :=
  if inv.userId = "" then none
  else if inv.amount = 0 then none
  else
    let currency := jsToUpper inv.currency
    if currency = "" then none
    else
      match getUsdPrice solPrice currency with
      | none => none
      | some price =>
        if price = 0 then none
        else some ⟨inv.userId, inv.id, currency, inv.amount, jsRound (inv.amount * price * 100)⟩

/-- The recordUsage helper: best-effort usage recording invoked on the
confirmation transition.  When the guard chain (recordedRow) skips, the store is
untouched; otherwise the merchant row is ensured, the monthly usage row is
read-modify-written by adding the USD cents, and the ledger row is appended. -/
def recordUsage (env : SweepEnv) (db : DB) (inv : Invoice) : DB :=
  match recordedRow env.solPrice inv with
  | none => db
  | some row =>
    let db1 := ensureMerchant db row.merchantId
    let prev := ((db1.usage.find? (fun r =>
      r.merchantId = row.merchantId ∧ r.month = env.month)).map (fun r => r.gmvCents)).getD 0
    let db2 := { db1 with
      usage := upsertUsage db1.usage row.merchantId env.month (prev + row.amountUsdCents) }
    { db2 with ledger := db2.ledger ++ [row] }

/-- The confirmation update: set status confirmed and the confirmation time on
every invoice row with the given id. -/
def setConfirmed (l : List Invoice) (id : ℕ) (now : ℕ) : List Invoice :=
  l.map (fun i =>
    if i.id = id then { i with status := .confirmed, confirmedAt := some now } else i)

/-- The payments-counter update: write the computed confirmation count on every
payment row of the given invoice. -/
def setPayConf (ps : List Payment) (invId : ℕ) (c : ℤ) : List Payment :=
  ps.map (fun p => if p.invoiceId = invId then { p with confirmations := c } else p)

/-- The loop body of the confirmations sweep over the selected rows.  The
boolean is true when the loop ran to completion; it is false when an uncaught
exception from the EVM receipt lookup aborted the handler, in which case the
remaining rows are left unprocessed (the Solana branch wraps its body in
try/catch, the EVM branch does not). -/
def sweepGo (env : SweepEnv) : DB → List Invoice → DB × Bool
  | db, [] => (db, true)
  | db, inv :: rest =>
    let hash := inv.detectedTxHash.getD ""
    if inv.network = "solana" then
      let db1 :=
        match env.sol hash with
        | .finalized =>
          recordUsage env { db with invoices := setConfirmed db.invoices inv.id env.now } inv
        | .notFinal => db
        | .rpcError => db
      sweepGo env db1 rest
    else if inv.network = "ethereum" ∨ inv.network = "polygon" ∨ inv.network = "bsc" then
      if ¬ env.rpcConfigured then sweepGo env db rest
      else
        match env.evm hash with
        | .rpcError => (db, false)
        | .missing => sweepGo env db rest
        | .ok blockNumber =>
          let confirmations := max 0 (env.tip - blockNumber + 1)
          if inv.confirmationsRequired.getD 1 ≤ confirmations then
            let db1 := { db with invoices := setConfirmed db.invoices inv.id env.now }
            let db2 := { db1 with payments := setPayConf db1.payments inv.id confirmations }
            sweepGo env (recordUsage env db2 inv) rest
          else
            sweepGo env { db with payments := setPayConf db.payments inv.id confirmations } rest
    else sweepGo env db rest

/-- Row selection of the confirmations sweep: paid invoices with a detected
transaction hash, capped at 50 rows. -/
def sweepSelect (db : DB) : List Invoice :=
  (db.invoices.filter (fun i => i.status = .paid ∧ i.detectedTxHash ≠ none)).take 50

/-- One full reconciler sweep. -/
def confirmationsSweep (env : SweepEnv) (db : DB) : DB × Bool :=
  sweepGo env db (sweepSelect db)

/-! ## Edge function buy (entitlement gating and invoice creation; the source is
the buy-link function carried in supabase/functions/billing-webhook/index.ts,
the variant documented in the README with `SUBSCRIPTIONS_ENABLED` gating) -/

/-- Decision of the entitlement check: allow, or block with an HTTP status and a
machine-readable code. -/
inductive Entitlement
  | allowed
  | blocked (httpStatus : ℕ) (code : String)
deriving DecidableEq, Repr

/-- Plan tier with the JavaScript default: a nullish or empty plan_tier reads as
trial. -/
def tierOf (r : MerchantRow) : String :=
  match r.planTier with
  | none => "trial"
  | some t => if t = "" then "trial" else t

/-- The assertMerchantEntitled check of the buy function, as a pure function of
the fetched merchant row and usage value.  `usage` is the gmv_cents of the
current-month usage row when one exists. -/
def assertMerchantEntitled (enabled : Bool) (merchantId : String)
    (merchant : Option MerchantRow) (now : ℤ) (usage : Option ℤ) : Entitlement :=
  if ¬ enabled then .allowed
  else if merchantId = "" then .allowed
  else
    match merchant with
    | none => .allowed
    | some r =>
      let tier := tierOf r
      let trialActive : Bool :=
        match r.trialEndsAt with
        | some te => decide (now < te)
        | none => false
      if trialActive then .allowed
      else if tier = "pro_100" then .allowed
      else if tier = "canceled" ∨ tier = "past_due" then .blocked 402 "entitlement_blocked"
      else if tier = "basic_50" ∨ tier = "trial" then
        if 1000000 ≤ usage.getD 0 then .blocked 402 "upgrade_required" else .allowed
      else .allowed

/-- Invoice-creation request after query-parameter reading: `a` is the
parseFloat result on the amount parameter (none models NaN). -/
structure BuyReq where
  m : String
  a : Option ℚ
  c : String
  r : String
  u : String
  aIsUsd : Bool
deriving DecidableEq, Repr

/-- Environment of the buy handler: feature flag, clock, generated row id and
public token, and the CoinGecko quote outcome (none when the fetch fails or the
value is not finite). -/
structure BuyEnv where
  subsEnabled : Bool
  now : ℤ
  month : String
  quote : Option ℚ
  nextId : ℕ
  freshToken : String
  createdAt : ℕ

/-- Responses of the buy handler. -/
inductive BuyOut
  | badReq (msg : String)
  | failed (httpStatus : ℕ) (msg : String)
  | blocked402 (code : String)
  | redirect302 (dest : String)
  | tokenJson (tok : String)
deriving DecidableEq, Repr

/-- Default network of the buy function per currency symbol. -/
def defaultNetwork (c : String) : Option String :=
  if c = "SOL" ∨ c = "USDC" ∨ c = "USDT" then some "solana" else none

/-- Strips one trailing slash, as the redirect destination builder does. -/
def stripSlash (u : String) : String :=
  if u.endsWith "/" then u.dropRight 1 else u

/-- The buy handler: validation, entitlement, wallet lookup, optional USD
conversion through the quote, invoice insert, redirect or JSON response.  The
informational usd/v query suffix of the redirect destination is omitted from the
modelled destination string (display-only data).  Merchant and usage lookups use
find?, their tables having unique keys on id and (merchant_id, month). -/
def buy (env : BuyEnv) (db : DB) (req : BuyReq) : DB × BuyOut :=
  let m := jsTrim req.m
  if m = "" then (db, .badReq "Missing merchant id (m)")
  else
    match req.a with
    | none => (db, .badReq "Invalid amount (a)")
    | some a =>
      if a ≤ 0 then (db, .badReq "Invalid amount (a)")
      else
        let c := jsToUpper (jsTrim req.c)
        if c = "" then (db, .badReq "Missing currency (c)")
        else if ¬ (c = "SOL" ∨ c = "USDC" ∨ c = "USDT") then (db, .badReq "Unsupported currency")
        else
          let ent := assertMerchantEntitled env.subsEnabled m
            (db.merchants.find? (fun r => r.id = m)) env.now
            ((db.usage.find? (fun r => r.merchantId = m ∧ r.month = env.month)).map
              (fun r => r.gmvCents))
          match ent with
          | .blocked _ code =>
            let u := jsTrim req.u
            if u ≠ "" then (db, .redirect302 (stripSlash u ++ "/?billing=upgrade_required"))
            else (db, .blocked402 code)
          | .allowed =>
            match db.wallets.find? (fun w => w.userId = m ∧ w.currency = c) with
            | none => (db, .badReq "Merchant has no wallet for currency")
            | some w =>
              let conv : BuyOut ⊕ ℚ :=
                if req.aIsUsd then
                  match env.quote with
                  | none => Sum.inl (.failed 502 "Failed to fetch price")
                  | some p =>
                    if p = 0 then Sum.inl (.failed 502 "Failed to fetch price")
                    else Sum.inr (toFixed6 (a / p))
                else Sum.inr a
              match conv with
              | Sum.inl out => (db, out)
              | Sum.inr amountCrypto =>
                let newInv : Invoice :=
                  { id := env.nextId
                    userId := m
                    amount := amountCrypto
                    currency := c
                    toAddress := w.address
                    reference := if jsTrim req.r = "" then none else some (jsTrim req.r)
                    status := .pending
                    network := (defaultNetwork c).getD ""
                    confirmationsRequired := none
                    detectedTxHash := none
                    detectedAt := none
                    confirmedAt := none
                    createdAt := env.createdAt
                    publicToken := env.freshToken }
                let db1 := { db with invoices := db.invoices ++ [newInv] }
                let u := jsTrim req.u
                if u ≠ "" then (db1, .redirect302 (stripSlash u ++ "/?t=" ++ env.freshToken))
                else (db1, .tokenJson env.freshToken)

/-! ## Specification-side definitions

These definitions transcribe claim wordings, for comparison against the
source-derived functions above. -/

/-- Entitlement decision as the specification words it: flag off, missing
merchant row, unexpired trial or the uncapped top tier allow; canceled or
past_due blocks with entitlement_blocked; the base tier or an expired trial
blocks with upgrade_required exactly when the current-month gmv_cents is at
least 1,000,000. -/
def entitlementClaim (enabled : Bool) (merchant : Option MerchantRow) (now : ℤ)
    (usage : Option ℤ) : Entitlement :=
  if ¬ enabled then .allowed
  else
    match merchant with
    | none => .allowed
    | some r =>
      let trialNotExpired : Bool :=
        match r.trialEndsAt with
        | some te => decide (now < te)
        | none => false
      if trialNotExpired then .allowed
      else if tierOf r = "pro_100" then .allowed
      else if tierOf r = "canceled" ∨ tierOf r = "past_due" then
        .blocked 402 "entitlement_blocked"
      else if tierOf r = "basic_50" ∨ trialNotExpired = false then
        if 1000000 ≤ usage.getD 0 then .blocked 402 "upgrade_required" else .allowed
      else .allowed

/-- Rounding to six decimal places, half away from zero, as the specification
words the USD conversion rounding. -/
def roundAway6 (x : ℚ) : ℚ :=
  if 0 ≤ x then ((⌊x * 1000000 + 1 / 2⌋ : ℤ) : ℚ) / 1000000
  else -(((⌊(-x) * 1000000 + 1 / 2⌋ : ℤ) : ℚ) / 1000000)

/-- Forward status movement along the draft, pending, paid, confirmed chain:
either no change, or one of the transitions the three producers perform. -/
def forwardOk (a b : Status) : Prop :=
  a = b ∨ (a = .pending ∧ b = .paid) ∨ (a = .draft ∧ b = .paid) ∨ (a = .paid ∧ b = .confirmed)

/-- Per-row relation for the two ingestion producers: forward movement, and a
row already paid or confirmed is left entirely unchanged. -/
def ingestStep (i j : Invoice) : Prop :=
  forwardOk i.status j.status ∧ ((i.status = .paid ∨ i.status = .confirmed) → j = i)

/-- Per-row relation for the reconciler sweep: unchanged, or a paid row promoted
to confirmed. -/
def sweepQ (now : ℕ) (i j : Invoice) : Prop :=
  j = i ∨ (i.status = .paid ∧ j = { i with status := .confirmed, confirmedAt := some now })

/-! ## Concrete data for witnesses and counterexamples -/

/-- Shorthand invoice constructor. -/
def mkInv (id : ℕ) (user : String) (amount : ℚ) (cur addr : String) (ref : Option String)
    (st : Status) (net : String) (creq : Option ℤ) (hash : Option String) (created : ℕ)
    (tok : String) : Invoice :=
  ⟨id, user, amount, cur, addr, ref, st, net, creq, hash, none, none, created, tok⟩

/-- Valid version-4 public token A. -/
def uuidA : String := "11111111-1111-4111-8111-111111111111"

/-- Valid version-4 public token B. -/
def uuidB : String := "22222222-2222-4222-8222-222222222222"

/-- Valid version-4 public token C. -/
def uuidC : String := "33333333-3333-4333-8333-333333333333"

/-- Valid version-4 public token D. -/
def uuidD : String := "44444444-4444-4444-8444-444444444444"

/-- A 32-character base58 signature. -/
def sigOne : String := "11111111111111111111111111111112"

/-- Another 32-character base58 signature. -/
def sigTwo : String := "11111111111111111111111111111113"

/-- Empty store. -/
def emptyDB : DB := ⟨[], [], [], [], [], []⟩

/-- Store for the sibling counterexample: two pending invoices sharing merchant,
amount, reference and also currency. -/
def cexSibDB : DB :=
  { emptyDB with invoices :=
      [mkInv 1 "u1" 5 "SOL" "a1" (some "ref") .pending "solana" none none 10 uuidA,
       mkInv 2 "u1" 5 "SOL" "a2" (some "ref") .pending "solana" none none 11 uuidB] }

/-- Store for the sibling witness: three pending invoices differing only in
currency plus one expired invoice with the same merchant, amount and
reference. -/
def sibWitDB : DB :=
  { emptyDB with invoices :=
      [mkInv 1 "u" 5 "SOL" "a1" (some "r") .pending "solana" none none 10 uuidA,
       mkInv 2 "u" 5 "USDC" "a2" (some "r") .pending "solana" none none 11 uuidB,
       mkInv 3 "u" 5 "USDT" "a3" (some "r") .pending "solana" none none 12 uuidC,
       mkInv 4 "u" 5 "SOL" "a4" (some "r") .expired "solana" none none 13 uuidD] }

/-- Store with a single draft invoice, matched by the event below. -/
def draftDB : DB :=
  { emptyDB with invoices :=
      [mkInv 7 "u" 500 "SOL" "0xaddr" none .draft "solana" none none 5 uuidA] }

/-- Webhook event paying the draft invoice of draftDB in full. -/
def draftEvt : RawEvent :=
  ⟨some "0xaddr", some "h123", .undef, .num 500, some "SOL", none, some "solana", .undef⟩

/-- Store with a single pending invoice, used for the tolerance witness. -/
def tolDB : DB :=
  { emptyDB with invoices :=
      [mkInv 3 "u" 500 "SOL" "0xabc" none .pending "solana" none none 5 uuidA] }

/-- Webhook event paying 0.996 of the expected amount of the tolDB invoice. -/
def tolEvt : RawEvent :=
  ⟨some "0xabc", some "h9", .undef, .num 498, some "SOL", none, some "solana", .undef⟩

/-- Webhook event whose value field is null. -/
def nullEvt : RawEvent :=
  ⟨some "0xabc", some "h9", .undef, .null, some "SOL", none, some "solana", .undef⟩

/-- Store with a pending invoice used for the racing-update counterexample. -/
def raceDB : DB :=
  { emptyDB with invoices :=
      [mkInv 1 "u" 5 "SOL" "a1" none .pending "solana" none none 10 uuidA] }

/-- Sweep environment whose chain lookups never succeed, for the monotonicity
witness. -/
def quietEnv : SweepEnv :=
  ⟨true, 100, fun _ => .missing, fun _ => .notFinal, none, "2026-10-01", 50⟩

/-- Store for the ledger counterexample: one paid ETH invoice with three
required confirmations. -/
def ethDB : DB :=
  { emptyDB with invoices :=
      [mkInv 1 "u" 1 "ETH" "0xa" none .paid "ethereum" (some 3) (some "0xh") 10 uuidA] }

/-- Sweep environment whose receipt lookup puts the ETH transaction at depth
three below the tip. -/
def ethEnv : SweepEnv :=
  ⟨true, 100, fun _ => .ok 98, fun _ => .rpcError, none, "2026-10-01", 60⟩

/-- Store for the confirmation-sweep witness: one paid USDC invoice with three
required confirmations. -/
def usdcDB : DB :=
  { emptyDB with invoices :=
      [mkInv 2 "u2" 3 "USDC" "a2" none .paid "ethereum" (some 3) (some "0xk") 10 uuidB] }

/-- Sweep environment placing the USDC transaction at three confirmations. -/
def usdcEnvDeep : SweepEnv :=
  ⟨true, 100, fun _ => .ok 98, fun _ => .rpcError, none, "2026-10-01", 61⟩

/-- Sweep environment placing the USDC transaction at two confirmations. -/
def usdcEnvShallow : SweepEnv :=
  ⟨true, 100, fun _ => .ok 99, fun _ => .rpcError, none, "2026-10-01", 61⟩

/-- Store for the batch-abort input: two paid EVM invoices. -/
def abortDB : DB :=
  { emptyDB with invoices :=
      [mkInv 1 "u" 1 "USDC" "a1" none .paid "ethereum" (some 1) (some "h1") 10 uuidA,
       mkInv 2 "u" 1 "USDC" "a2" none .paid "ethereum" (some 1) (some "h2") 11 uuidB] }

/-- Store holding only the second invoice of abortDB. -/
def abortDBsecond : DB :=
  { emptyDB with invoices :=
      [mkInv 2 "u" 1 "USDC" "a2" none .paid "ethereum" (some 1) (some "h2") 11 uuidB] }

/-- Sweep environment whose receipt lookup throws for hash h1 and finds a deep
receipt for hash h2. -/
def abortEnv : SweepEnv :=
  ⟨true, 100, fun h => if h = "h2" then .ok 90 else .rpcError,
   fun _ => .rpcError, none, "2026-10-01", 62⟩

/-- Merchant row on the basic tier with no trial end set. -/
def mrBasic : MerchantRow := ⟨"m", some "basic_50", none⟩

/-- Buy environment for the conversion witness: a quote of 1000/7 dollars per
unit, subscriptions disabled. -/
def buyEnvWit : BuyEnv := ⟨false, 0, "2026-10-01", some (1000 / 7), 9, uuidB, 77⟩

/-- Store with one USDC wallet for merchant mer. -/
def buyDBWit : DB := { emptyDB with wallets := [⟨"mer", "USDC", "SoAddr"⟩] }

/-- Ten-dollar USDC invoice-creation request. -/
def buyReqWit : BuyReq := ⟨"mer", some 10, "USDC", "", "", true⟩

/-! ## Helper lemmas -/

theorem takeDigits_all (l : List Char) (h : l.all Char.isDigit = true) :
    takeDigits l = (l, []) := by
  induction l with
  | nil => rfl
  | cons c cs ih =>
    simp only [List.all_cons, Bool.and_eq_true] at h
    simp [takeDigits, h.1, ih h.2]

theorem digit_not_ws (c : Char) (h : c.isDigit = true) : c.isWhitespace = false := by
  by_contra hw
  rw [Bool.not_eq_false] at hw
  simp only [Char.isWhitespace, Bool.or_eq_true, decide_eq_true_eq] at hw
  rcases hw with ((h1 | h1) | h1) | h1 <;> (subst h1; exact absurd h (by decide))

theorem dropWhile_ws_of_digits (l : List Char) (h : l.all Char.isDigit = true) :
    l.dropWhile Char.isWhitespace = l := by
  cases l with
  | nil => rfl
  | cons c cs =>
    simp only [List.all_cons, Bool.and_eq_true] at h
    simp [List.dropWhile_cons, digit_not_ws c h.1]

theorem trimChars_of_digits (l : List Char) (h : l.all Char.isDigit = true) :
    trimChars l = l := by
  unfold trimChars
  rw [dropWhile_ws_of_digits l h,
    dropWhile_ws_of_digits _ (by rw [List.all_reverse]; exact h), List.reverse_reverse]

theorem parseDec_digits (l : List Char) (h1 : l ≠ []) (h2 : l.all Char.isDigit = true) :
    parseDecTail 1 l = .fin (digitsVal l) := by
  unfold parseDecTail
  rw [takeDigits_all l h2]
  cases l with
  | nil => exact absurd rfl h1
  | cons c cs => simp [parseExpTail, digitsVal]

theorem jsNumberOfChars_digits (l : List Char) (h1 : l ≠ []) (h2 : l.all Char.isDigit = true) :
    jsNumberOfChars l = .fin (digitsVal l) := by
  have hd : ∀ c, c ∈ l → c.isDigit = true := by
    intro c hc
    exact List.all_eq_true.mp h2 c hc
  have htake : ∀ (a b : Char), l.take 2 = [a, b] → a.isDigit = true ∧ b.isDigit = true := by
    intro a b hab
    have hsub : ∀ x, x ∈ l.take 2 → x ∈ l := fun x hx => (List.take_sublist 2 l).mem hx
    rw [hab] at hsub
    exact ⟨hd a (hsub a (by simp)), hd b (hsub b (by simp))⟩
  unfold jsNumberOfChars
  rw [trimChars_of_digits l h2]
  rw [if_neg h1]
  rw [if_neg (by
    push_neg
    constructor
    · intro he; rw [he] at h2; exact absurd h2 (by decide)
    · intro he; rw [he] at h2; exact absurd h2 (by decide))]
  rw [if_neg (by intro he; rw [he] at h2; exact absurd h2 (by decide))]
  rw [if_neg (by
    rintro (hx | hx) <;> (rcases htake _ _ hx with ⟨-, hb⟩; exact absurd hb (by decide)))]
  rw [if_neg (by
    rintro (hx | hx) <;> (rcases htake _ _ hx with ⟨-, hb⟩; exact absurd hb (by decide)))]
  rw [if_neg (by
    rintro (hx | hx) <;> (rcases htake _ _ hx with ⟨-, hb⟩; exact absurd hb (by decide)))]
  cases l with
  | nil => exact absurd rfl h1
  | cons c cs =>
    have hc : c.isDigit = true := hd c (List.mem_cons_self c cs)
    have hcp : c ≠ '+' := by intro he; rw [he] at hc; exact absurd hc (by decide)
    have hcm : c ≠ '-' := by intro he; rw [he] at hc; exact absurd hc (by decide)
    simp only [parseSigned, if_neg hcp, if_neg hcm]
    exact parseDec_digits _ h1 h2

theorem jsNumberOfString_digits (s : String) (h : isDigitsStr s = true) :
    jsNumberOfString s = .fin (digitsVal s.toList) := by
  unfold isDigitsStr at h
  simp only [Bool.and_eq_true, decide_eq_true_eq] at h
  exact jsNumberOfChars_digits s.toList h.1 h.2

theorem normalizeAmount_nan_input (s : String) (d : Option JsNum)
    (h : jsNumberOfString s = .nan) : normalizeAmount (.str s) d = .fin 0 := by
  by_cases hg : isDigitsStr s = true ∧ d.isSome = true
  · exact absurd (jsNumberOfString_digits s hg.1) (by rw [h]; intro he; exact JsNum.noConfusion he)
  · simp only [normalizeAmount]
    rw [if_neg hg, h]

theorem forall₂_of_pointwise {α : Type} {R : α → α → Prop} {f : α → α} :
    ∀ (l : List α), (∀ x ∈ l, R x (f x)) → List.Forall₂ R l (l.map f) := by
  intro l h
  induction l with
  | nil => exact List.Forall₂.nil
  | cons a t ih =>
    exact List.Forall₂.cons (h a (List.mem_cons_self a t))
      (ih fun x hx => h x (List.mem_cons_of_mem _ hx))

theorem forall₂_trans_of {α : Type} {R : α → α → Prop}
    (htr : ∀ a b c, R a b → R b c → R a c) :
    ∀ {l1 l2 l3 : List α}, List.Forall₂ R l1 l2 → List.Forall₂ R l2 l3 →
      List.Forall₂ R l1 l3 := by
  intro l1 l2 l3 h12
  induction h12 generalizing l3 with
  | nil => intro h23; cases h23; exact List.Forall₂.nil
  | cons hab h ih =>
    intro h23
    cases h23 with
    | cons hbc h' => exact List.Forall₂.cons (htr _ _ _ hab hbc) (ih h')

theorem foldl_pickNewer_mem :
    ∀ (l : List Invoice) (acc : Option Invoice) (i : Invoice),
      l.foldl pickNewer acc = some i → acc = some i ∨ i ∈ l := by
  intro l
  induction l with
  | nil => intro acc i h; exact Or.inl h
  | cons a t ih =>
    intro acc i h
    rcases ih (pickNewer acc a) i h with h' | h'
    · cases acc with
      | none =>
        simp only [pickNewer, Option.some_inj] at h'
        exact Or.inr (h' ▸ List.mem_cons_self a t)
      | some j =>
        simp only [pickNewer] at h'
        by_cases hlt : j.createdAt < a.createdAt
        · rw [if_pos hlt, Option.some_inj] at h'
          exact Or.inr (h' ▸ List.mem_cons_self a t)
        · rw [if_neg hlt] at h'
          exact Or.inl h'
    · exact Or.inr (List.mem_cons_of_mem _ h')

theorem mostRecent_mem (l : List Invoice) (i : Invoice) (h : mostRecent l = some i) :
    i ∈ l := by
  rcases foldl_pickNewer_mem l none i h with h' | h'
  · exact Option.noConfusion h'
  · exact h'

theorem findInvoice_spec (db : DB) (a b c : String) (inv : Invoice)
    (h : findInvoice db a b c = some inv) :
    inv ∈ db.invoices ∧ inv.toAddress = a ∧ inv.currency = b ∧ inv.network = c ∧
      (inv.status = .pending ∨ inv.status = .draft) := by
  unfold findInvoice at h
  have hm := mostRecent_mem _ _ h
  rw [List.mem_filter] at hm
  refine ⟨hm.1, ?_⟩
  have h2 := hm.2
  simp only [decide_eq_true_eq] at h2
  exact h2

theorem ensureMerchant_invoices (db : DB) (m : String) :
    (ensureMerchant db m).invoices = db.invoices := by
  unfold ensureMerchant; split <;> rfl

theorem ensureMerchant_payments (db : DB) (m : String) :
    (ensureMerchant db m).payments = db.payments := by
  unfold ensureMerchant; split <;> rfl

theorem ensureMerchant_ledger (db : DB) (m : String) :
    (ensureMerchant db m).ledger = db.ledger := by
  unfold ensureMerchant; split <;> rfl

theorem recordUsage_invoices (env : SweepEnv) (db : DB) (inv : Invoice) :
    (recordUsage env db inv).invoices = db.invoices := by
  unfold recordUsage
  rcases hr : recordedRow env.solPrice inv with _ | row <;>
    simp [hr, ensureMerchant_invoices]

theorem recordUsage_payments (env : SweepEnv) (db : DB) (inv : Invoice) :
    (recordUsage env db inv).payments = db.payments := by
  unfold recordUsage
  rcases hr : recordedRow env.solPrice inv with _ | row <;>
    simp [hr, ensureMerchant_payments]

theorem recordUsage_ledger (env : SweepEnv) (db : DB) (inv : Invoice) :
    (recordUsage env db inv).ledger = db.ledger ++ (recordedRow env.solPrice inv).toList := by
  unfold recordUsage
  rcases hr : recordedRow env.solPrice inv with _ | row <;>
    simp [hr, ensureMerchant_ledger]

theorem nodup_id_eq (l : List Invoice) (h : (l.map (fun i => i.id)).Nodup)
    (a b : Invoice) (ha : a ∈ l) (hb : b ∈ l) (hid : a.id = b.id) : a = b :=
  List.inj_on_of_nodup_map h ha hb hid

theorem sweepQ_trans (now : ℕ) :
    ∀ a b c, sweepQ now a b → sweepQ now b c → sweepQ now a c := by
  intro a b c hab hbc
  rcases hab with rfl | ⟨ha, rfl⟩
  · exact hbc
  · rcases hbc with rfl | ⟨hb, rfl⟩
    · exact Or.inr ⟨ha, rfl⟩
    · exact absurd hb (by intro hb; exact Status.noConfusion hb)

theorem forall₂_sweepQ_refl (now : ℕ) (l : List Invoice) :
    List.Forall₂ (sweepQ now) l l :=
  List.forall₂_same.mpr (fun _ _ => Or.inl rfl)

theorem setConfirmed_forall₂ (l : List Invoice) (id now : ℕ)
    (h : ∀ i ∈ l, i.id = id → i.status = .paid) :
    List.Forall₂ (sweepQ now) l (setConfirmed l id now) := by
  unfold setConfirmed
  apply forall₂_of_pointwise
  intro x hx
  by_cases hid : x.id = id
  · rw [if_pos hid]; exact Or.inr ⟨h x hx hid, rfl⟩
  · rw [if_neg hid]; exact Or.inl rfl

theorem paid_rows_after_confirm (db : DB) (a : Invoice) (rest : List Invoice) (now : ℕ)
    (h : ∀ x ∈ a :: rest, ∀ i ∈ db.invoices, i.id = x.id → i.status = .paid)
    (hanot : a.id ∉ rest.map (fun i => i.id)) :
    ∀ x ∈ rest, ∀ i ∈ setConfirmed db.invoices a.id now, i.id = x.id → i.status = .paid := by
  intro x hx i hi hid
  unfold setConfirmed at hi
  rcases List.mem_map.mp hi with ⟨i0, hi0, heq⟩
  by_cases hz : i0.id = a.id
  · rw [if_pos hz] at heq
    exfalso
    apply hanot
    have hxa : x.id = a.id := by
      rw [← hid, ← heq]
      exact hz
    rw [← hxa]
    exact List.mem_map.mpr ⟨x, hx, rfl⟩
  · rw [if_neg hz] at heq
    subst heq
    exact h x (List.mem_cons_of_mem _ hx) i0 hi0 hid

theorem sweep_step_confirm (env : SweepEnv) (db D : DB) (a : Invoice) (rest : List Invoice)
    (hD : D.invoices = setConfirmed db.invoices a.id env.now)
    (hpa : ∀ i ∈ db.invoices, i.id = a.id → i.status = .paid)
    (h : ∀ x ∈ a :: rest, ∀ i ∈ db.invoices, i.id = x.id → i.status = .paid)
    (hanot : a.id ∉ rest.map (fun i => i.id))
    (hnrest : (rest.map (fun i => i.id)).Nodup)
    (ih : ∀ db' : DB, (∀ x ∈ rest, ∀ i ∈ db'.invoices, i.id = x.id → i.status = .paid) →
      (rest.map (fun i => i.id)).Nodup →
      List.Forall₂ (sweepQ env.now) db'.invoices (sweepGo env db' rest).1.invoices) :
    List.Forall₂ (sweepQ env.now) db.invoices
      (sweepGo env (recordUsage env D a) rest).1.invoices := by
  refine forall₂_trans_of (sweepQ_trans env.now)
    (setConfirmed_forall₂ db.invoices a.id env.now hpa) ?_
  have hres := ih (recordUsage env D a)
    (by
      rw [recordUsage_invoices, hD]
      exact paid_rows_after_confirm db a rest env.now h hanot)
    hnrest
  rw [recordUsage_invoices, hD] at hres
  exact hres

theorem sweepGo_forall₂ (env : SweepEnv) :
    ∀ (l : List Invoice) (db : DB),
      (∀ x ∈ l, ∀ i ∈ db.invoices, i.id = x.id → i.status = .paid) →
      ((l.map (fun i => i.id)).Nodup) →
      List.Forall₂ (sweepQ env.now) db.invoices (sweepGo env db l).1.invoices := by
  intro l
  induction l with
  | nil => intro db _ _; exact forall₂_sweepQ_refl env.now db.invoices
  | cons a rest ih =>
    intro db h hn
    have hnrest : (rest.map (fun i => i.id)).Nodup := by
      rw [List.map_cons, List.nodup_cons] at hn
      exact hn.2
    have hanot : a.id ∉ rest.map (fun i => i.id) := by
      rw [List.map_cons, List.nodup_cons] at hn
      exact hn.1
    have hrest : ∀ x ∈ rest, ∀ i ∈ db.invoices, i.id = x.id → i.status = .paid :=
      fun x hx => h x (List.mem_cons_of_mem _ hx)
    have hpa : ∀ i ∈ db.invoices, i.id = a.id → i.status = .paid :=
      h a (List.mem_cons_self a rest)
    simp only [sweepGo]
    by_cases hsol : a.network = "solana"
    · rw [if_pos hsol]
      split
      · exact sweep_step_confirm env db _ a rest rfl hpa h hanot hnrest ih
      · exact ih db hrest hnrest
      · exact ih db hrest hnrest
    · rw [if_neg hsol]
      by_cases hevm : a.network = "ethereum" ∨ a.network = "polygon" ∨ a.network = "bsc"
      · rw [if_pos hevm]
        by_cases hrpc : env.rpcConfigured = true
        · rw [if_neg (by simp [hrpc])]
          split
          · exact forall₂_sweepQ_refl env.now db.invoices
          · exact ih db hrest hnrest
          · split
            · exact sweep_step_confirm env db _ a rest rfl hpa h hanot hnrest ih
            · exact ih { db with
                payments := setPayConf db.payments a.id _ } hrest hnrest
        · rw [if_pos (by simp [hrpc])]
          exact ih db hrest hnrest
      · rw [if_neg hevm]
        exact ih db hrest hnrest

theorem jsAdd_fin (x y : ℚ) : jsAdd (.fin x) (.fin y) = .fin (x + y) := rfl

theorem jsLt_fin (x y : ℚ) : jsLt (.fin x) (.fin y) = decide (x < y) := rfl

theorem jsFalsy_fin (x : ℚ) : jsFalsy (.fin x) = decide (x = 0) := rfl

theorem processEvent_invoices_cases (db : DB) (now : ℕ) (fresh : String) (e : RawEvent) :
    (processEvent db now fresh e).1.invoices = db.invoices ∨
      ∃ inv, findInvoice db (extractFields e).toAddr (extractFields e).currency
          (extractFields e).network = some inv ∧
        (processEvent db now fresh e).1.invoices =
          markInvoicePaid db.invoices inv.id
            (if (extractFields e).txHash = "" then none else some (extractFields e).txHash)
            now := by
  simp only [processEvent]
  split
  · exact Or.inl rfl
  · split
    · exact Or.inl rfl
    · rename_i inv heq
      split
      · exact Or.inl rfl
      · exact Or.inr ⟨inv, heq, rfl⟩

theorem solanaRead_proceed (db : DB) (t : String) (inv : Invoice)
    (h : solanaRead db t = .proceed inv) :
    db.invoices.filter (fun i => i.publicToken = t) = [inv] ∧ inv.status = .pending := by
  unfold solanaRead at h
  split at h
  · exact SRead.noConfusion h
  · rename_i x heq
    split at h
    · exact SRead.noConfusion h
    · rename_i hs
      push_neg at hs
      injection h with hxi
      subst hxi
      exact ⟨heq, hs⟩
  · exact SRead.noConfusion h

theorem solanaReceipt_cases (db : DB) (t sig : String) :
    (solanaReceipt db t sig).1 = db ∨
      ∃ inv, solanaRead db (jsTrim t) = .proceed inv ∧
        (solanaReceipt db t sig).1 =
          { db with invoices := solanaUpdate db.invoices (jsTrim t) (jsTrim sig) } := by
  simp only [solanaReceipt]
  split
  · exact Or.inl rfl
  · split
    · exact Or.inl rfl
    · split
      · exact Or.inl rfl
      · exact Or.inl rfl
      · exact Or.inl rfl
      · rename_i inv heq
        exact Or.inr ⟨inv, heq, rfl⟩

/-! ## Claim theorems -/

/-- C10: every webhook event whose extracted recipient address is empty, whose
normalized amount is 0, or whose extracted currency is empty is dropped before
the invoice lookup: processing issues no invoice query and performs no mutation;
moreover the amount normaliser maps a missing value field, a null value field,
and a non-numeric string value field (one on which Number gives NaN) to 0. -/
theorem webhook_skips_empty_events (db : DB) (now : ℕ) (fresh : String) (e : RawEvent)
    (h : (extractFields e).toAddr = "" ∨ (extractFields e).amount = .fin 0 ∨
      (extractFields e).currency = "") :
    processEvent db now fresh e = (db, false)
    ∧ (∀ d, normalizeAmount .undef d = .fin 0)
    ∧ (∀ d, normalizeAmount .null d = .fin 0)
    ∧ (∀ s d, jsNumberOfString s = .nan → normalizeAmount (.str s) d = .fin 0) := by
  refine ⟨?_, fun d => rfl, fun d => rfl, fun s d hs => normalizeAmount_nan_input s d hs⟩
  have hg : (extractFields e).toAddr = "" ∨ jsFalsy (extractFields e).amount = true ∨
      (extractFields e).currency = "" := by
    rcases h with h | h | h
    · exact Or.inl h
    · exact Or.inr (Or.inl (by rw [h]; decide))
    · exact Or.inr (Or.inr h)
  simp only [processEvent]
  rw [if_pos hg]

/-- C10 witness: a null value field on a concrete event skips processing. -/
theorem webhook_skips_empty_events_witness :
    processEvent emptyDB 3 "k" nullEvt = (emptyDB, false) :=
  (webhook_skips_empty_events emptyDB 3 "k" nullEvt (by decide)).1

theorem processEvent_accepts (db : DB) (now : ℕ) (fresh : String) (e : RawEvent)
    (inv : Invoice) (q : ℚ)
    (hto : (extractFields e).toAddr ≠ "")
    (hcur : (extractFields e).currency ≠ "")
    (hamt : (extractFields e).amount = .fin q) (hq : q ≠ 0)
    (hfind : findInvoice db (extractFields e).toAddr (extractFields e).currency
      (extractFields e).network = some inv)
    (hacc : inv.amount * (1 - 5 / 1000) ≤ q) :
    processEvent db now fresh e =
      ({ db with
          payments := upsertPayment db.payments
            ⟨inv.id, (extractFields e).network,
              (if (extractFields e).txHash = "" then fresh else (extractFields e).txHash),
              .fin q, 0⟩
          invoices := markInvoicePaid db.invoices inv.id
            (if (extractFields e).txHash = "" then none else some (extractFields e).txHash)
            now }, true) := by
  have hguard : ¬((extractFields e).toAddr = "" ∨ jsFalsy (extractFields e).amount = true ∨
      (extractFields e).currency = "") := by
    push_neg
    exact ⟨hto, by rw [hamt, jsFalsy_fin]; simp [hq], hcur⟩
  simp only [processEvent]
  rw [if_neg hguard]
  split
  · rename_i heq; rw [hfind] at heq; exact Option.noConfusion heq
  · rename_i x heq
    rw [hfind, Option.some_inj] at heq
    subst heq
    rw [hamt, jsAdd_fin, jsLt_fin]
    rw [if_neg (by
      simp only [decide_eq_true_eq, not_lt]
      linarith)]

theorem processEvent_rejects (db : DB) (now : ℕ) (fresh : String) (e : RawEvent)
    (inv : Invoice) (q : ℚ)
    (hto : (extractFields e).toAddr ≠ "")
    (hcur : (extractFields e).currency ≠ "")
    (hamt : (extractFields e).amount = .fin q) (hq : q ≠ 0)
    (hfind : findInvoice db (extractFields e).toAddr (extractFields e).currency
      (extractFields e).network = some inv)
    (hrej : ¬ inv.amount * (1 - 5 / 1000) ≤ q) :
    processEvent db now fresh e = (db, true) := by
  have hguard : ¬((extractFields e).toAddr = "" ∨ jsFalsy (extractFields e).amount = true ∨
      (extractFields e).currency = "") := by
    push_neg
    exact ⟨hto, by rw [hamt, jsFalsy_fin]; simp [hq], hcur⟩
  simp only [processEvent]
  rw [if_neg hguard]
  split
  · rfl
  · rename_i x heq
    rw [hfind, Option.some_inj] at heq
    subst heq
    rw [hamt, jsAdd_fin, jsLt_fin]
    rw [if_pos (by
      simp only [decide_eq_true_eq]
      push_neg at hrej
      linarith)]

/-- C2: for a webhook event that passes the emptiness guard and matches a
pending or draft invoice, the payment is accepted (payment upsert plus the paid
transition recording hash and detection time) exactly when the detected finite
amount is at least the expected amount times 1 minus 0.005, and a rejected event
mutates nothing; in particular 0.996 of the expected amount is accepted and 0.99
of it is rejected whenever the expected amount is positive. -/
theorem webhook_amount_tolerance (db : DB) (now : ℕ) (fresh : String) (e : RawEvent)
    (inv : Invoice) (q : ℚ)
    (hto : (extractFields e).toAddr ≠ "")
    (hcur : (extractFields e).currency ≠ "")
    (hamt : (extractFields e).amount = .fin q) (hq : q ≠ 0)
    (hfind : findInvoice db (extractFields e).toAddr (extractFields e).currency
      (extractFields e).network = some inv) :
    (inv.amount * (1 - 5 / 1000) ≤ q →
      processEvent db now fresh e =
        ({ db with
            payments := upsertPayment db.payments
              ⟨inv.id, (extractFields e).network,
                (if (extractFields e).txHash = "" then fresh else (extractFields e).txHash),
                .fin q, 0⟩
            invoices := markInvoicePaid db.invoices inv.id
              (if (extractFields e).txHash = "" then none else some (extractFields e).txHash)
              now }, true))
    ∧ (¬ inv.amount * (1 - 5 / 1000) ≤ q → processEvent db now fresh e = (db, true))
    ∧ (0 < inv.amount → inv.amount * (996 / 1000) = q → inv.amount * (1 - 5 / 1000) ≤ q)
    ∧ (0 < inv.amount → inv.amount * (99 / 100) = q → ¬ inv.amount * (1 - 5 / 1000) ≤ q) := by
  refine ⟨fun hacc => processEvent_accepts db now fresh e inv q hto hcur hamt hq hfind hacc,
    fun hrej => processEvent_rejects db now fresh e inv q hto hcur hamt hq hfind hrej, ?_, ?_⟩
  · intro hpos heq
    rw [← heq]
    nlinarith
  · intro hpos heq
    rw [← heq]
    intro hc
    nlinarith

/-- C2 witness: a concrete event paying 0.996 of the expected 0.5 SOL is
accepted and recorded. -/
theorem webhook_amount_tolerance_witness :
    processEvent tolDB 5 "k" tolEvt =
      ({ tolDB with
          payments := upsertPayment tolDB.payments ⟨3, "solana", "h9", .fin 498, 0⟩
          invoices := markInvoicePaid tolDB.invoices 3 (some "h9") 5 }, true) := by
  have h := (webhook_amount_tolerance tolDB 5 "k" tolEvt
    (mkInv 3 "u" 500 "SOL" "0xabc" none .pending "solana" none none 5 uuidA)
    498 (by decide) (by decide) (by rfl) (by norm_num) (by rfl)).1
    (by norm_num [mkInv])
  exact h

/-- C9: the client-submitted-receipt handler mutates an invoice only when its
status is exactly pending; for a valid token and signature matching an invoice
in any other status (draft included) it returns HTTP 200 with the store
unchanged, so a draft invoice can never become paid through a client receipt,
even though the webhook producer does pay draft invoices (third conjunct, a
concrete draft invoice paid by processEvent). -/
theorem client_receipt_only_pending (db : DB) (t sig : String) (inv : Invoice)
    (hu : isUuid (jsTrim t) = true) (hb : isBase58 (jsTrim sig) = true)
    (hmatch : db.invoices.filter (fun i => i.publicToken = jsTrim t) = [inv])
    (hst : inv.status ≠ .pending) :
    (solanaReceipt db t sig = (db, .okTwoHundred) ∧ SResp.okTwoHundred.httpStatus = 200)
    ∧ (processEvent draftDB 7 "k" draftEvt).1.invoices.map (fun i => i.status) = [.paid] := by
  refine ⟨⟨?_, rfl⟩, ?_⟩
  · have hread : solanaRead db (jsTrim t) = .alreadyDone := by
      unfold solanaRead
      rw [hmatch]
      show (if inv.status ≠ Status.pending then SRead.alreadyDone else SRead.proceed inv) =
        SRead.alreadyDone
      rw [if_pos hst]
    simp only [solanaReceipt]
    rw [if_neg (fun hc => hc hu), if_neg (fun hc => hc hb), hread]
  · have hp := processEvent_accepts draftDB 7 "k" draftEvt
      (mkInv 7 "u" 500 "SOL" "0xaddr" none .draft "solana" none none 5 uuidA) 500
      (by decide) (by decide) rfl (by norm_num) rfl (by norm_num [mkInv])
    rw [hp]
    rfl

/-- C3: under the primary-key uniqueness of invoice ids, every operation of the
webhook producer, the client-receipt producer and the confirmation reconciler
moves each invoice status only forward along the draft, pending, paid, confirmed
chain (the webhook pays pending or draft rows, the client receipt pays pending
rows, the sweep confirms paid rows; nothing ever moves backward or leaves
confirmed), and the two ingestion producers leave a row that is already paid or
confirmed entirely unchanged, hash and detection time included. -/
theorem status_monotone (db : DB) (hids : (db.invoices.map (fun i => i.id)).Nodup)
    (now : ℕ) (fresh : String) (e : RawEvent) (t sig : String) (env : SweepEnv) :
    List.Forall₂ ingestStep db.invoices (processEvent db now fresh e).1.invoices
    ∧ List.Forall₂ ingestStep db.invoices (solanaReceipt db t sig).1.invoices
    ∧ List.Forall₂ (fun i j => forwardOk i.status j.status) db.invoices
      (confirmationsSweep env db).1.invoices := by
  have hrefl : ∀ (l : List Invoice), List.Forall₂ ingestStep l l :=
    fun l => List.forall₂_same.mpr (fun x _ => ⟨Or.inl rfl, fun _ => rfl⟩)
  refine ⟨?_, ?_, ?_⟩
  · rcases processEvent_invoices_cases db now fresh e with hcase | ⟨inv, hfind, hcase⟩
    · rw [hcase]; exact hrefl _
    · rw [hcase]
      rcases findInvoice_spec db _ _ _ inv hfind with ⟨hmem, -, -, -, hst⟩
      unfold markInvoicePaid
      apply forall₂_of_pointwise
      intro x hx
      by_cases hid : x.id = inv.id
      · have hxinv : x = inv := nodup_id_eq db.invoices hids x inv hx hmem hid
        subst hxinv
        rw [if_pos hid]
        refine ⟨?_, ?_⟩
        · rcases hst with hp | hd
          · exact Or.inr (Or.inl ⟨hp, rfl⟩)
          · exact Or.inr (Or.inr (Or.inl ⟨hd, rfl⟩))
        · intro hpc
          rcases hst with hp | hp <;> rcases hpc with hc | hc <;>
            (rw [hp] at hc; exact Status.noConfusion hc)
      · rw [if_neg hid]
        exact ⟨Or.inl rfl, fun _ => rfl⟩
  · rcases solanaReceipt_cases db t sig with hcase | ⟨inv, hread, hcase⟩
    · rw [hcase]; exact hrefl _
    · rw [hcase]
      rcases solanaRead_proceed db (jsTrim t) inv hread with ⟨hfilter, hpend⟩
      show List.Forall₂ ingestStep db.invoices (solanaUpdate db.invoices (jsTrim t) (jsTrim sig))
      unfold solanaUpdate
      apply forall₂_of_pointwise
      intro x hx
      by_cases htok : x.publicToken = jsTrim t
      · have hxf : x ∈ db.invoices.filter (fun i => i.publicToken = jsTrim t) :=
          List.mem_filter.mpr ⟨hx, by simp [htok]⟩
        rw [hfilter] at hxf
        have hxinv : x = inv := by simpa using hxf
        subst hxinv
        rw [if_pos htok]
        refine ⟨Or.inr (Or.inl ⟨hpend, rfl⟩), ?_⟩
        intro hpc
        rcases hpc with hc | hc <;> (rw [hpend] at hc; exact Status.noConfusion hc)
      · rw [if_neg htok]
        exact ⟨Or.inl rfl, fun _ => rfl⟩
  · have hsub : List.Sublist (sweepSelect db) db.invoices := by
      unfold sweepSelect
      exact (List.take_sublist 50 _).trans (List.filter_sublist _)
    have hnl : ((sweepSelect db).map (fun i => i.id)).Nodup :=
      List.Nodup.sublist (List.Sublist.map (fun i => i.id) hsub) hids
    have hsel : ∀ x ∈ sweepSelect db, ∀ i ∈ db.invoices, i.id = x.id → i.status = .paid := by
      intro x hx i hi hid
      have hxdb : x ∈ db.invoices := hsub.subset hx
      have hxmem : x ∈ db.invoices.filter
          (fun i => i.status = .paid ∧ i.detectedTxHash ≠ none) := by
        unfold sweepSelect at hx
        exact (List.take_sublist 50 _).subset hx
      have hpaid : x.status = .paid := by
        have h2 := (List.mem_filter.mp hxmem).2
        simp only [decide_eq_true_eq] at h2
        exact h2.1
      have hix : i = x := nodup_id_eq db.invoices hids i x hi hxdb hid
      rw [hix]
      exact hpaid
    have hmain := sweepGo_forall₂ env (sweepSelect db) db hsel hnl
    refine List.Forall₂.imp ?_ hmain
    intro i j hq
    rcases hq with rfl | ⟨hp, rfl⟩
    · exact Or.inl rfl
    · exact Or.inr (Or.inr (Or.inr ⟨hp, rfl⟩))

/-- C3 witness: the three producer operations applied to a store with one
pending invoice. -/
theorem status_monotone_witness :
    List.Forall₂ ingestStep tolDB.invoices (processEvent tolDB 5 "k" tolEvt).1.invoices
    ∧ List.Forall₂ ingestStep tolDB.invoices (solanaReceipt tolDB uuidA sigOne).1.invoices
    ∧ List.Forall₂ (fun i j => forwardOk i.status j.status) tolDB.invoices
      (confirmationsSweep quietEnv tolDB).1.invoices :=
  status_monotone tolDB (by decide) 5 "k" tolEvt uuidA sigOne quietEnv

/-- C4 (amended): for a sweep whose selection is one paid EVM invoice with a
detected hash and a found receipt, the loop completes, the payments rows of the
invoice get confirmation count max 0 (tip minus block plus 1) in both branches,
the invoice transitions to confirmed exactly when that count reaches
confirmations_required (default 1 when unset), and on the confirming sweep the
PaymentsLedger grows by exactly the recordUsage row — one row when the invoice
has a nonempty merchant id, nonzero amount, nonempty currency and an available
nonzero USD quote, and none otherwise. -/
theorem sweep_confirmation_behavior (env : SweepEnv) (db : DB) (inv : Invoice)
    (h : String) (b : ℤ)
    (hsel : sweepSelect db = [inv])
    (hnet : inv.network = "ethereum")
    (hrpc : env.rpcConfigured = true)
    (hhash : inv.detectedTxHash = some h)
    (hevm : env.evm h = .ok b) :
    (confirmationsSweep env db).2 = true
    ∧ (confirmationsSweep env db).1.payments =
        setPayConf db.payments inv.id (max 0 (env.tip - b + 1))
    ∧ (inv.confirmationsRequired.getD 1 ≤ max 0 (env.tip - b + 1) →
        (confirmationsSweep env db).1.invoices = setConfirmed db.invoices inv.id env.now
        ∧ (confirmationsSweep env db).1.ledger =
            db.ledger ++ (recordedRow env.solPrice inv).toList)
    ∧ (¬ inv.confirmationsRequired.getD 1 ≤ max 0 (env.tip - b + 1) →
        (confirmationsSweep env db).1.invoices = db.invoices
        ∧ (confirmationsSweep env db).1.ledger = db.ledger) := by
  unfold confirmationsSweep
  rw [hsel]
  simp only [sweepGo]
  rw [hhash]
  simp only [Option.getD_some]
  rw [if_neg (by rw [hnet]; decide)]
  rw [if_pos (Or.inl hnet)]
  rw [if_neg (by simp [hrpc])]
  split
  · rename_i heq
    rw [hevm] at heq
    exact EvmLookup.noConfusion heq
  · rename_i heq
    rw [hevm] at heq
    exact EvmLookup.noConfusion heq
  · rename_i b' heq
    rw [hevm] at heq
    injection heq with hb
    subst hb
    refine ⟨by split <;> rfl, ?_, ?_, ?_⟩
    · split
      · exact recordUsage_payments env
          { db with
            invoices := setConfirmed db.invoices inv.id env.now
            payments := setPayConf db.payments inv.id (max 0 (env.tip - b + 1)) } inv
      · rfl
    · intro hge
      rw [if_pos hge]
      exact ⟨recordUsage_invoices env
          { db with
            invoices := setConfirmed db.invoices inv.id env.now
            payments := setPayConf db.payments inv.id (max 0 (env.tip - b + 1)) } inv,
        recordUsage_ledger env
          { db with
            invoices := setConfirmed db.invoices inv.id env.now
            payments := setPayConf db.payments inv.id (max 0 (env.tip - b + 1)) } inv⟩
    · intro hge
      rw [if_neg hge]
      exact ⟨rfl, rfl⟩

/-- C4 counterexample: a confirming sweep over a paid ETH invoice with three
required confirmations and a receipt three blocks deep transitions the invoice
to confirmed yet appends no PaymentsLedger row, since no USD quote exists for
the ETH symbol and recordUsage silently skips — refuting the claim that the
confirming sweep always appends exactly one ledger row. -/
theorem sweep_ledger_counterexample :
    (confirmationsSweep ethEnv ethDB).1.invoices.map (fun i => i.status) = [.confirmed]
    ∧ (confirmationsSweep ethEnv ethDB).1.ledger = [] :=
  ⟨rfl, rfl⟩

/-- C4 witness: a USDC invoice with three required confirmations confirms (with
its ledger row) at three confirmations and stays put at two. -/
theorem sweep_confirmation_behavior_witness :
    ((confirmationsSweep usdcEnvDeep usdcDB).1.invoices =
        setConfirmed usdcDB.invoices 2 61
      ∧ (confirmationsSweep usdcEnvDeep usdcDB).1.ledger =
        usdcDB.ledger ++ (recordedRow usdcEnvDeep.solPrice
          (mkInv 2 "u2" 3 "USDC" "a2" none .paid "ethereum" (some 3) (some "0xk") 10 uuidB)).toList)
    ∧ (confirmationsSweep usdcEnvShallow usdcDB).1.invoices = usdcDB.invoices := by
  constructor
  · exact (sweep_confirmation_behavior usdcEnvDeep usdcDB
      (mkInv 2 "u2" 3 "USDC" "a2" none .paid "ethereum" (some 3) (some "0xk") 10 uuidB)
      "0xk" 98 rfl rfl rfl rfl rfl).2.2.1 (by decide)
  · exact ((sweep_confirmation_behavior usdcEnvShallow usdcDB
      (mkInv 2 "u2" 3 "USDC" "a2" none .paid "ethereum" (some 3) (some "0xk") 10 uuidB)
      "0xk" 99 rfl rfl rfl rfl rfl).2.2.2 (by decide)).1

/-- C5, code evaluated at the failing input: an EVM receipt lookup that throws
for the first invoice of the batch aborts the whole sweep — the store comes back
unchanged with the completion flag false, leaving the second invoice paid even
though its own lookup would confirm it (second and third conjuncts: the same
sweep over a batch holding only that invoice confirms it and completes).  A
merely missing receipt does not abort (fourth conjunct). -/
theorem sweep_abort_on_rpc_error :
    confirmationsSweep abortEnv abortDB = (abortDB, false)
    ∧ (confirmationsSweep abortEnv abortDBsecond).1.invoices.map (fun i => i.status) =
        [.confirmed]
    ∧ (confirmationsSweep abortEnv abortDBsecond).2 = true
    ∧ (confirmationsSweep quietEnv abortDB).2 = true :=
  ⟨rfl, rfl, rfl, rfl⟩

/-- C7 counterexample: two pending invoices share merchant, amount, reference
and also currency; requesting the first returns both rows — the requested
invoice itself included — as siblings, refuting the claim that the endpoint
returns exactly the rows of differing currency. -/
theorem siblings_same_currency_counterexample :
    invoicePublic cexSibDB uuidA =
      .ok (mkInv 1 "u1" 5 "SOL" "a1" (some "ref") .pending "solana" none none 10 uuidA)
        [mkInv 1 "u1" 5 "SOL" "a1" (some "ref") .pending "solana" none none 10 uuidA,
         mkInv 2 "u1" 5 "SOL" "a2" (some "ref") .pending "solana" none none 11 uuidB]
    ∧ (mkInv 2 "u1" 5 "SOL" "a2" (some "ref") .pending "solana" none none 11 uuidB).currency =
        (mkInv 1 "u1" 5 "SOL" "a1" (some "ref") .pending "solana" none none 10 uuidA).currency
    ∧ (mkInv 2 "u1" 5 "SOL" "a2" (some "ref") .pending "solana" none none 11 uuidB).id ≠
        (mkInv 1 "u1" 5 "SOL" "a1" (some "ref") .pending "solana" none none 10 uuidA).id :=
  ⟨rfl, rfl, by decide⟩

/-- C7 (amended): for a valid public token matching exactly one invoice, the
endpoint returns that invoice together with, as siblings, exactly the rows
sharing its merchant, amount and reference whose status is pending, paid or
confirmed — with no currency restriction, so same-currency rows and the
requested invoice itself are included, and rows in any other status are
excluded. -/
theorem siblings_membership (db : DB) (tok : String) (inv : Invoice)
    (hu : isUuid tok = true)
    (hm : db.invoices.filter (fun i => i.publicToken = tok) = [inv]) :
    invoicePublic db tok = .ok inv (db.invoices.filter (siblingFilter inv))
    ∧ ∀ i, (i ∈ db.invoices.filter (siblingFilter inv) ↔
        i ∈ db.invoices ∧ i.userId = inv.userId ∧ i.amount = inv.amount ∧
          i.reference = inv.reference ∧
          (i.status = .pending ∨ i.status = .paid ∨ i.status = .confirmed)) := by
  constructor
  · unfold invoicePublic
    rw [if_neg (not_or.mpr
      ⟨by intro he; rw [he] at hu; exact absurd hu (by decide), fun hc => hc hu⟩)]
    rw [hm]
  · intro i
    rw [List.mem_filter]
    simp [siblingFilter, and_assoc]

/-- C7 witness: in the three-currency scenario with one extra expired row, all
three pending rows come back as siblings and the expired row is excluded. -/
theorem siblings_membership_witness :
    invoicePublic sibWitDB uuidA =
      .ok (mkInv 1 "u" 5 "SOL" "a1" (some "r") .pending "solana" none none 10 uuidA)
        [mkInv 1 "u" 5 "SOL" "a1" (some "r") .pending "solana" none none 10 uuidA,
         mkInv 2 "u" 5 "USDC" "a2" (some "r") .pending "solana" none none 11 uuidB,
         mkInv 3 "u" 5 "USDT" "a3" (some "r") .pending "solana" none none 12 uuidC] :=
  (siblings_membership sibWitDB uuidA
    (mkInv 1 "u" 5 "SOL" "a1" (some "r") .pending "solana" none none 10 uuidA)
    (by decide) rfl).1

/-- C8 counterexample: both racing deliveries pass the pending read against the
same snapshot, and once the winning update has marked the invoice paid with the
first signature, the losing update — filtering on the public token only, with
no status condition — is not a no-op: it changes the row again, refuting the
claimed status-guarded conditional transition. -/
theorem racing_update_not_noop :
    solanaRead raceDB uuidA =
      .proceed (mkInv 1 "u" 5 "SOL" "a1" none .pending "solana" none none 10 uuidA)
    ∧ solanaUpdate (solanaUpdate raceDB.invoices uuidA sigOne) uuidA sigTwo ≠
        solanaUpdate raceDB.invoices uuidA sigOne :=
  ⟨rfl, by decide⟩

/-- C8 (amended): the status test of the client-receipt producer is a separate
read preceding its update, and the update filters on the public token alone.
When two deliveries race on a pending invoice, the read passes for both against
the initial snapshot; the losing update applied after the winning one is not a
no-op — it overwrites the detected transaction hash with its own signature —
but it writes status paid again, so the statuses after the winning update and
after the losing one agree row for row: the externally visible pending-to-paid
status change happens exactly once. -/
theorem racing_update_overwrites_hash (db : DB) (t s1 s2 : String) (inv : Invoice)
    (hm : db.invoices.filter (fun i => i.publicToken = t) = [inv])
    (hp : inv.status = .pending) :
    solanaRead db t = .proceed inv
    ∧ ((solanaUpdate db.invoices t s1).map (fun i => i.status) =
        (solanaUpdate (solanaUpdate db.invoices t s1) t s2).map (fun i => i.status))
    ∧ (∀ i ∈ solanaUpdate (solanaUpdate db.invoices t s1) t s2,
        i.publicToken = t → i.status = .paid ∧ i.detectedTxHash = some s2)
    ∧ (∀ i ∈ solanaUpdate db.invoices t s1,
        i.publicToken = t → i.status = .paid ∧ i.detectedTxHash = some s1) := by
  refine ⟨?_, ?_, ?_, ?_⟩
  · unfold solanaRead
    rw [hm]
    show (if inv.status ≠ Status.pending then SRead.alreadyDone else SRead.proceed inv) = _
    rw [if_neg (fun hc => hc hp)]
  · unfold solanaUpdate
    rw [List.map_map, List.map_map, List.map_map]
    apply List.map_congr_left
    intro x _
    by_cases htok : x.publicToken = t
    · simp only [Function.comp_apply, if_pos htok]
    · simp only [Function.comp_apply, if_neg htok]
  · intro i hi htok
    unfold solanaUpdate at hi
    rcases List.mem_map.mp hi with ⟨i1, _, heq⟩
    by_cases h1 : i1.publicToken = t
    · rw [if_pos h1] at heq
      rw [← heq]
      exact ⟨rfl, rfl⟩
    · rw [if_neg h1] at heq
      rw [← heq] at htok
      exact absurd htok h1
  · intro i hi htok
    unfold solanaUpdate at hi
    rcases List.mem_map.mp hi with ⟨i1, _, heq⟩
    by_cases h1 : i1.publicToken = t
    · rw [if_pos h1] at heq
      rw [← heq]
      exact ⟨rfl, rfl⟩
    · rw [if_neg h1] at heq
      rw [← heq] at htok
      exact absurd htok h1

/-- C8 witness: the racing-update behaviour at the concrete pending invoice of
raceDB with two distinct signatures. -/
theorem racing_update_overwrites_hash_witness :
    solanaRead raceDB uuidA =
      .proceed (mkInv 1 "u" 5 "SOL" "a1" none .pending "solana" none none 10 uuidA)
    ∧ ((solanaUpdate raceDB.invoices uuidA sigOne).map (fun i => i.status) =
        (solanaUpdate (solanaUpdate raceDB.invoices uuidA sigOne) uuidA sigTwo).map
          (fun i => i.status))
    ∧ (∀ i ∈ solanaUpdate (solanaUpdate raceDB.invoices uuidA sigOne) uuidA sigTwo,
        i.publicToken = uuidA → i.status = .paid ∧ i.detectedTxHash = some sigTwo)
    ∧ (∀ i ∈ solanaUpdate raceDB.invoices uuidA sigOne,
        i.publicToken = uuidA → i.status = .paid ∧ i.detectedTxHash = some sigOne) :=
  racing_update_overwrites_hash raceDB uuidA sigOne sigTwo
    (mkInv 1 "u" 5 "SOL" "a1" none .pending "solana" none none 10 uuidA) rfl rfl

theorem toFixed6_eq_roundAway6 (x : ℚ) (hx : 0 ≤ x) : toFixed6 x = roundAway6 x := by
  unfold toFixed6 roundAway6
  rw [if_pos hx]

/-- C1: for every nonempty merchant id and a plan tier within the schema domain
(null, trial, basic_50, pro_100, past_due, canceled), the entitlement check of
the buy function decides exactly as the specification states: flag off, missing
merchant row, unexpired trial or the pro tier allow; canceled or past_due blocks
with 402 entitlement_blocked; the basic tier or an expired trial blocks with 402
upgrade_required exactly when the current-month gmv_cents reaches 1,000,000 —
so 999,999 is allowed and 1,000,000 is blocked (boundary conjuncts). -/
theorem entitlement_check_matches_claim (enabled : Bool) (mId : String)
    (mr : Option MerchantRow) (now : ℤ) (usage : Option ℤ)
    (hm : mId ≠ "")
    (ht : mr = none ∨ ∃ r, mr = some r ∧
      (r.planTier = none ∨ r.planTier = some "trial" ∨ r.planTier = some "basic_50" ∨
       r.planTier = some "pro_100" ∨ r.planTier = some "past_due" ∨
       r.planTier = some "canceled")) :
    assertMerchantEntitled enabled mId mr now usage = entitlementClaim enabled mr now usage
    ∧ assertMerchantEntitled true "m" (some mrBasic) 0 (some 999999) = .allowed
    ∧ assertMerchantEntitled true "m" (some mrBasic) 0 (some 1000000) =
        .blocked 402 "upgrade_required" := by
  refine ⟨?_, by decide, by decide⟩
  rcases ht with rfl | ⟨r, rfl, htier⟩
  · cases enabled with
    | false => rfl
    | true => simp [assertMerchantEntitled, entitlementClaim, hm]
  · rcases r with ⟨rid, pt, te⟩
    rcases htier with h0 | h0 | h0 | h0 | h0 | h0 <;>
      (simp only at h0
       subst h0
       cases enabled with
       | false => rfl
       | true =>
         cases te with
         | none =>
           by_cases hg : (1000000 : ℤ) ≤ usage.getD 0 <;>
             simp [assertMerchantEntitled, entitlementClaim, tierOf, hm, hg]
         | some tev =>
           by_cases hnt : now < tev <;>
             by_cases hg : (1000000 : ℤ) ≤ usage.getD 0 <;>
               simp [assertMerchantEntitled, entitlementClaim, tierOf, hm, hnt, hg])

/-- C1 witness: the boundary behaviour at the basic tier with no trial end. -/
theorem entitlement_check_matches_claim_witness :
    (assertMerchantEntitled true "m" (some mrBasic) 0 (some 999999) =
      entitlementClaim true (some mrBasic) 0 (some 999999))
    ∧ assertMerchantEntitled true "m" (some mrBasic) 0 (some 999999) = .allowed
    ∧ assertMerchantEntitled true "m" (some mrBasic) 0 (some 1000000) =
        .blocked 402 "upgrade_required" :=
  entitlement_check_matches_claim true "m" (some mrBasic) 0 (some 999999) (by decide)
    (Or.inr ⟨mrBasic, rfl, Or.inr (Or.inr (Or.inl rfl))⟩)

/-- C6: for a USD-denominated creation request that passes validation and
entitlement with a wallet configured, an available nonzero quote p yields
exactly one inserted invoice, pending, whose persisted amount is the USD amount
divided by p rounded to six decimals — equal to half-away-from-zero rounding
for a positive quote — while an unavailable or zero quote fails with HTTP 502
and inserts nothing; ten dollars at a quote of 1000/7 dollars per unit persists
exactly 7/100, i.e. 0.070000. -/
theorem usd_conversion_rounding (env : BuyEnv) (db : DB) (req : BuyReq)
    (a : ℚ) (w : WalletRow)
    (hm : jsTrim req.m ≠ "")
    (ha : req.a = some a) (hapos : 0 < a)
    (husd : req.aIsUsd = true)
    (hc : jsToUpper (jsTrim req.c) = "SOL" ∨ jsToUpper (jsTrim req.c) = "USDC" ∨
      jsToUpper (jsTrim req.c) = "USDT")
    (hent : assertMerchantEntitled env.subsEnabled (jsTrim req.m)
      (db.merchants.find? (fun r => r.id = jsTrim req.m)) env.now
      ((db.usage.find? (fun r => r.merchantId = jsTrim req.m ∧ r.month = env.month)).map
        (fun r => r.gmvCents)) = .allowed)
    (hw : db.wallets.find? (fun r => r.userId = jsTrim req.m ∧
      r.currency = jsToUpper (jsTrim req.c)) = some w) :
    (∀ p, env.quote = some p → p ≠ 0 →
      ∃ inv, (buy env db req).1.invoices = db.invoices ++ [inv]
        ∧ inv.amount = toFixed6 (a / p)
        ∧ inv.status = .pending
        ∧ (0 < p → toFixed6 (a / p) = roundAway6 (a / p)))
    ∧ (env.quote = none → buy env db req = (db, .failed 502 "Failed to fetch price"))
    ∧ (env.quote = some 0 → buy env db req = (db, .failed 502 "Failed to fetch price"))
    ∧ toFixed6 (10 / (1000 / 7)) = 7 / 100 := by
  have hcne : jsToUpper (jsTrim req.c) ≠ "" := by
    rcases hc with h | h | h <;> (rw [h]; decide)
  have hbuypre : ∀ (v : BuyOut ⊕ ℚ) (G : DB × BuyOut → Prop),
      ((if req.aIsUsd = true then
          match env.quote with
          | none => Sum.inl (BuyOut.failed 502 "Failed to fetch price")
          | some p =>
            if p = 0 then Sum.inl (BuyOut.failed 502 "Failed to fetch price")
            else Sum.inr (toFixed6 (a / p))
        else Sum.inr a : BuyOut ⊕ ℚ) = v) →
      (G (match v with
          | Sum.inl out => (db, out)
          | Sum.inr amountCrypto =>
            let newInv : Invoice :=
              { id := env.nextId
                userId := jsTrim req.m
                amount := amountCrypto
                currency := jsToUpper (jsTrim req.c)
                toAddress := w.address
                reference := if jsTrim req.r = "" then none else some (jsTrim req.r)
                status := .pending
                network := (defaultNetwork (jsToUpper (jsTrim req.c))).getD ""
                confirmationsRequired := none
                detectedTxHash := none
                detectedAt := none
                confirmedAt := none
                createdAt := env.createdAt
                publicToken := env.freshToken }
            let db1 := { db with invoices := db.invoices ++ [newInv] }
            if jsTrim req.u ≠ "" then
              (db1, .redirect302 (stripSlash (jsTrim req.u) ++ "/?t=" ++ env.freshToken))
            else (db1, .tokenJson env.freshToken))) →
      G (buy env db req) := by
    intro v G hv hG
    simp only [buy]
    rw [if_neg hm]
    split
    · rename_i heq; rw [ha] at heq; exact Option.noConfusion heq
    · rename_i a' heq
      rw [ha, Option.some_inj] at heq
      subst heq
      rw [if_neg (not_le.mpr hapos), if_neg hcne, if_neg (not_not_intro hc)]
      split
      · rename_i s code heq; rw [hent] at heq; exact Entitlement.noConfusion heq
      · split
        · rename_i heq; rw [hw] at heq; exact Option.noConfusion heq
        · rename_i w' heq
          rw [hw, Option.some_inj] at heq
          subst heq
          rw [hv]
          exact hG
  refine ⟨?_, ?_, ?_, ?_⟩
  · intro p hq hp0
    refine hbuypre (Sum.inr (toFixed6 (a / p)))
      (fun out => ∃ inv, out.1.invoices = db.invoices ++ [inv]
        ∧ inv.amount = toFixed6 (a / p) ∧ inv.status = .pending
        ∧ (0 < p → toFixed6 (a / p) = roundAway6 (a / p))) ?_ ?_
    · rw [if_pos husd, hq]
      show (if p = 0 then Sum.inl (BuyOut.failed 502 "Failed to fetch price")
        else Sum.inr (toFixed6 (a / p))) = _
      rw [if_neg hp0]
    · simp only []
      split
      · exact ⟨_, rfl, rfl, rfl,
          fun hp => toFixed6_eq_roundAway6 _ (le_of_lt (div_pos hapos hp))⟩
      · exact ⟨_, rfl, rfl, rfl,
          fun hp => toFixed6_eq_roundAway6 _ (le_of_lt (div_pos hapos hp))⟩
  · intro hq
    refine hbuypre (Sum.inl (.failed 502 "Failed to fetch price"))
      (fun out => out = (db, .failed 502 "Failed to fetch price")) ?_ rfl
    rw [if_pos husd, hq]
  · intro hq
    refine hbuypre (Sum.inl (.failed 502 "Failed to fetch price"))
      (fun out => out = (db, .failed 502 "Failed to fetch price")) ?_ rfl
    rw [if_pos husd, hq]
    show (if (0 : ℚ) = 0 then Sum.inl (BuyOut.failed 502 "Failed to fetch price")
      else Sum.inr (toFixed6 (a / 0))) = _
    rw [if_pos rfl]
  · have hx : (10 / (1000 / 7) : ℚ) * 1000000 + 1 / 2 = 140001 / 2 := by norm_num
    unfold toFixed6
    rw [hx]
    rw [show ⌊(140001 / 2 : ℚ)⌋ = 70000 from by
      rw [Int.floor_eq_iff]
      constructor <;> norm_num]
    norm_num

/-- C6 witness: the ten-dollar USDC request at a 1000/7 quote. -/
theorem usd_conversion_rounding_witness :
    ∃ inv, (buy buyEnvWit buyDBWit buyReqWit).1.invoices = buyDBWit.invoices ++ [inv]
      ∧ inv.amount = toFixed6 (10 / (1000 / 7))
      ∧ inv.status = .pending
      ∧ (0 < (1000 / 7 : ℚ) → toFixed6 (10 / (1000 / 7)) = roundAway6 (10 / (1000 / 7))) :=
  (usd_conversion_rounding buyEnvWit buyDBWit buyReqWit 10 ⟨"mer", "USDC", "SoAddr"⟩
    (by decide) rfl (by norm_num) rfl (Or.inr (Or.inl rfl)) rfl rfl).1
    (1000 / 7) rfl (by norm_num)

/-- C9 witness: the draft invoice of draftDB with a valid token and signature
yields a 200 no-op. -/
theorem client_receipt_only_pending_witness :
    solanaReceipt draftDB uuidA sigOne = (draftDB, .okTwoHundred) :=
  (client_receipt_only_pending draftDB uuidA sigOne
    (mkInv 7 "u" 500 "SOL" "0xaddr" none .draft "solana" none none 5 uuidA)
    (by decide) (by decide) (by rfl) (by decide)).1.1

end SwiftSpace
